import Mathlib

/-!
Verification of the dashdot SMART overlay storage module.

The development shallowly embeds the patched dashdot server code
(DynamicStorageMapper, the smartctl output parsers, the SMART data cache,
the legacy storage-load projection) and the patched Homarr client
(getCurrentStorageLoadAsync).  JavaScript strings are modelled as Lean
strings processed over their character lists; JavaScript numbers holding
byte counts, temperatures and timestamps are modelled as Int; absent
object fields are modelled as Option; the external smartctl invocation is
modelled as an explicit probe outcome parameter; the mutable module-level
cache is modelled by explicit state passing.
-/

namespace DashdotSmart

/-- Character class of the JavaScript regex escape backslash-s restricted to
ASCII, as used by the smartctl output regexes and by trim. -/
def jsWhitespace (c : Char) : Bool :=
  c == ' ' || c == '\t' || c == '\n' || c == '\r' || c == '\x0b' || c == '\x0c'

/-- JavaScript String.prototype.startsWith. -/
def strStartsWith (s p : String) : Bool :=
  p.data.isPrefixOf s.data

/-- JavaScript String.prototype.endsWith. -/
def strEndsWith (s p : String) : Bool :=
  p.data.reverse.isPrefixOf s.data.reverse

/-- Whether the first list occurs as a contiguous sublist of the second. -/
def listInfixOf (p : List Char) : List Char → Bool
  | [] => p.isPrefixOf []
  | c :: cs => p.isPrefixOf (c :: cs) || listInfixOf p cs

/-- Substring containment, as tested by a literal-alternative regex. -/
def strContainsSub (s p : String) : Bool :=
  listInfixOf p.data s.data

/-- Characters collected while trimming both ends, as String.prototype.trim. -/
def trimChars (cs : List Char) : List Char :=
  ((cs.dropWhile jsWhitespace).reverse.dropWhile jsWhitespace).reverse

/-- JavaScript String.prototype.trim restricted to ASCII whitespace. -/
def strTrim (s : String) : String :=
  String.mk (trimChars s.data)

/-- Helper of splitLines: accumulates the current line (reversed). -/
def splitLinesAux : List Char → List Char → List String
  | [], acc => [String.mk acc.reverse]
  | c :: cs, acc =>
    if c == '\n' then String.mk acc.reverse :: splitLinesAux cs []
    else splitLinesAux cs (c :: acc)

/-- JavaScript str.split with separator a newline character. -/
def splitLines (s : String) : List String :=
  splitLinesAux s.data []

/-- Helper of splitWs: accumulates the current field (reversed). -/
def splitWsAux : List Char → List Char → List String
  | [], acc => if acc.isEmpty then [] else [String.mk acc.reverse]
  | c :: cs, acc =>
    if jsWhitespace c then
      if acc.isEmpty then splitWsAux cs []
      else String.mk acc.reverse :: splitWsAux cs []
    else splitWsAux cs (c :: acc)

/-- JavaScript str.split on runs of whitespace, on an already trimmed
string (no empty fields are produced). -/
def splitWs (s : String) : List String :=
  splitWsAux s.data []

/-- Value of a list of decimal digit characters. -/
def digitsToNat (cs : List Char) : Nat :=
  cs.foldl (fun n c => n * 10 + (c.toNat - 48)) 0

/-- JavaScript Number.parseInt with radix 10: skip leading whitespace, an
optional sign, then the maximal run of decimal digits; none when that run
is empty (NaN). -/
def jsParseInt (s : String) : Option Int :=
  let cs := s.data.dropWhile jsWhitespace
  match cs with
  | '-' :: rest =>
    let ds := rest.takeWhile Char.isDigit
    if ds.isEmpty then none else some (-(digitsToNat ds : Int))
  | '+' :: rest =>
    let ds := rest.takeWhile Char.isDigit
    if ds.isEmpty then none else some ((digitsToNat ds : Int))
  | _ =>
    let ds := cs.takeWhile Char.isDigit
    if ds.isEmpty then none else some ((digitsToNat ds : Int))

/-- Test of the regex anchored at line start: optional whitespace, the
attribute id 194, then at least one whitespace character. -/
def testAttr194 (line : String) : Bool :=
  match line.data.dropWhile jsWhitespace with
  | '1' :: '9' :: '4' :: c :: _ => jsWhitespace c
  | _ => false

/-- Test of the regex Temperature_Celsius or Temperature_Internal anywhere
in the line. -/
def mentionsTempAttr (line : String) : Bool :=
  strContainsSub line ("Temperature_Celsius") ||
    strContainsSub line ("Temperature_Internal")

/-- A line of the attribute dump that both regex tests of
parseSmartTemperature accept. -/
def isTempCandidate (line : String) : Bool :=
  testAttr194 line && mentionsTempAttr line

/-- Column 9 (0-based) of the trimmed, whitespace-split line: the raw-value
column read by parseSmartTemperature. -/
def lineRawValue (line : String) : Option String :=
  (splitWs (strTrim line)).get? 9

/-- The line scan loop of parseSmartTemperature over the split lines. -/
def parseSmartTemperatureGo : List String → Option Int
  | [] => none
  | line :: rest =>
    if isTempCandidate line then
      match lineRawValue line with
      | some rv =>
        if rv ≠ "" then
          match jsParseInt rv with
          | some t => some t
          | none => parseSmartTemperatureGo rest
        else parseSmartTemperatureGo rest
      | none => parseSmartTemperatureGo rest
    else parseSmartTemperatureGo rest

/-- parseSmartTemperature from the patched dynamic.ts: scans the smartctl
attribute dump line by line for attribute 194 rows naming a temperature
attribute and parses the raw-value column. -/
def parseSmartTemperature (stdout : String) : Option Int :=
  parseSmartTemperatureGo (splitLines stdout)

/-- The literal phrase of the health regex, lower-cased for the
case-insensitive match. -/
def healthPhrase : List Char :=
  ("smart overall-health self-assessment test result:").data

/-- Case-insensitive literal match of a pattern at the head of the input,
returning the rest of the input on success. -/
def matchCI : List Char → List Char → Option (List Char)
  | [], rest => some rest
  | _ :: _, [] => none
  | p :: ps, c :: cs => if c.toLower == p then matchCI ps cs else none

/-- Attempt of the health regex at one start position: the literal phrase,
optional whitespace, then a nonempty run of letters or underscores
(captured and upper-cased, as the source upper-cases the captured token). -/
def healthTokenAt (cs : List Char) : Option String :=
  match matchCI healthPhrase cs with
  | none => none
  | some rest =>
    let tok := (rest.dropWhile jsWhitespace).takeWhile fun c => c.isAlpha || c == '_'
    if tok.isEmpty then none else some (String.mk (tok.map Char.toUpper))

/-- Leftmost match of the health regex over the whole output. -/
def findHealthToken : List Char → Option String
  | [] => none
  | c :: cs =>
    match healthTokenAt (c :: cs) with
    | some s => some s
    | none => findHealthToken cs

/-- parseSmartHealth from the patched dynamic.ts: extracts the overall
health status token; PASSED is healthy, FAILED and every other token is
unhealthy; no match leaves both fields unknown. -/
def parseSmartHealth (stdout : String) : Option String × Option Bool :=
  match findHealthToken stdout.data with
  | none => (none, none)
  | some status =>
    if status == "PASSED" then (some ("PASSED"), some true)
    else if status == "FAILED" then (some ("FAILED"), some false)
    else (some status, some false)

/-- SmartData from the patched dynamic.ts: optional fields model absent
JavaScript object properties. -/
structure SmartData where
  temperature : Option Int := none
  overallStatus : Option String := none
  healthy : Option Bool := none
  deriving DecidableEq, Repr

/-- An entry of the module-level smartDataCache: SmartData plus the store
timestamp. -/
structure CacheEntry where
  temperature : Option Int := none
  overallStatus : Option String := none
  healthy : Option Bool := none
  timestamp : Int
  deriving DecidableEq, Repr

/-- The smartDataCache Map, modelled as an insertion-ordered association
list without duplicate keys. -/
abbrev SmartCache := List (String × CacheEntry)

/-- Map.prototype.get on the cache. -/
def cacheGet (c : SmartCache) (k : String) : Option CacheEntry :=
  (c.find? fun p => p.1 == k).map fun p => p.2

/-- Map.prototype.set on the cache: replaces the value in place when the
key is present, otherwise appends. -/
def cacheSet : SmartCache → String → CacheEntry → SmartCache
  | [], k, v => [(k, v)]
  | (a, w) :: rest, k, v =>
    if a == k then (k, v) :: rest else (a, w) :: cacheSet rest k v

/-- The SMART_CACHE_DURATION_MS constant of the patched dynamic.ts. -/
def SMART_CACHE_DURATION_MS : Int := 60000

/-- normalizeDevicePath from the patched dynamic.ts. -/
def normalizeDevicePath (device : String) : String :=
  if strStartsWith device ("/dev/") then device else ("/dev/" ++ device)

/-- The SMART_SATA_DEVICE_REGEX test, case-insensitive: a slash-dev-slash-sd path
followed by one or more letters and nothing else. -/
def smartSataDeviceTest (s : String) : Bool :=
  match s.data.map Char.toLower with
  | '/' :: 'd' :: 'e' :: 'v' :: '/' :: 's' :: 'd' :: rest =>
    !rest.isEmpty && rest.all Char.isLower
  | _ => false

/-- Result of one getSmartData call: the returned SmartData, the cache
after the call, and whether the external smartctl tool was invoked. -/
structure SmartResult where
  data : SmartData
  cache : SmartCache
  invoked : Bool
  deriving Repr

/-- The cache-hit test of getSmartData: the stored entry when one exists
and is younger than the TTL. -/
def smartCacheFresh (cache : SmartCache) (now : Int) (devicePath : String) :
    Option CacheEntry :=
  match cacheGet cache devicePath with
  | some cached =>
    if now - cached.timestamp < SMART_CACHE_DURATION_MS then some cached else none
  | none => none

/-- getSmartData from the patched dynamic.ts.  The outcome of the smartctl
invocation is passed as the probe argument: some carries the stdout of the
attribute dump and of the health assessment, none models any failure of
the invocation (tool unavailable, abnormal exit, rejected output).  On a
fresh cache hit the stored record is returned without invoking the tool;
otherwise the tool is invoked, on success the parsed record and on failure
an all-unknown record is stored under the current timestamp and returned.
No failure is ever propagated. -/
def getSmartData (probe : Option (String × String)) (now : Int)
    (cache : SmartCache) (devicePath : String) : SmartResult :=
  match smartCacheFresh cache now devicePath with
  | some cached =>
    ⟨⟨cached.temperature, cached.overallStatus, cached.healthy⟩, cache, false⟩
  | none =>
    match probe with
    | some (attrOut, healthOut) =>
      let temperature := parseSmartTemperature attrOut
      let hd := parseSmartHealth healthOut
      ⟨⟨temperature, hd.1, hd.2⟩,
        cacheSet cache devicePath ⟨temperature, hd.1, hd.2, now⟩, true⟩
    | none =>
      ⟨⟨none, none, none⟩,
        cacheSet cache devicePath ⟨none, none, none, now⟩, true⟩

/-- One element of a StorageLayoutEntry's disks array. -/
structure Disk where
  device : String
  deriving DecidableEq, Repr

/-- A StorageLayoutEntry of the static storage layout (an element of
StorageInfo). -/
structure StorageEntry where
  size : Int
  disks : List Disk
  virtual : Bool
  raidLabel : Option String := none
  raidName : Option String := none
  deriving DecidableEq, Repr

/-- A BlockDevicesData record from systeminformation. -/
structure Block where
  name : String
  device : String
  label : String
  uuid : String
  type : String
  fsType : String
  mount : String
  deriving DecidableEq, Repr

/-- An FsSizeData record from systeminformation. -/
structure Size where
  mount : String
  fs : String
  type : String
  used : Int
  size : Int
  deriving DecidableEq, Repr

/-- StorageLoadExtendedEntry from the patched dynamic.ts. -/
structure StorageLoadExtendedEntry where
  load : Int
  temperature : Option Int := none
  overallStatus : Option String := none
  healthy : Option Bool := none
  deriving DecidableEq, Repr

/-- The configuration and host environment consumed by the mapper:
CONFIG.enable_smart_temps, CONFIG.fs_type_filter, and the fromHost path
translation from the utils module. -/
structure Env where
  enable_smart_temps : Bool
  fs_type_filter : List String
  fromHost : String → String

/-- sumUp from dashdot common applied to the used field. -/
def sumUpUsed (l : List Size) : Int :=
  l.foldl (fun acc s => acc + s.used) 0

/-- sumUp from dashdot common applied to the size field. -/
def sumUpSize (l : List Size) : Int :=
  l.foldl (fun acc s => acc + s.size) 0

/-- Helper of dedupFirst carrying the set of already seen elements. -/
def dedupFirstAux : List String → List String → List String
  | _, [] => []
  | seen, x :: xs =>
    if seen.contains x then dedupFirstAux seen xs
    else x :: dedupFirstAux (x :: seen) xs

/-- The JavaScript spread of a Set built from an array: duplicates removed,
first occurrences kept in order. -/
def dedupFirst (l : List String) : List String :=
  dedupFirstAux [] l

/-- The DynamicStorageMapper class: its constructor arguments together
with the environment it reads. -/
structure DynamicStorageMapper where
  env : Env
  hostWin32 : Bool
  layout : List StorageEntry
  blocks : List Block
  sizes : List Size

namespace DynamicStorageMapper

/-- getValidSizes: filesystem-size records whose mount lies under the host
root (or any mount on Windows hosts) and whose type is not filtered out. -/
def getValidSizes (m : DynamicStorageMapper) : List Size :=
  m.sizes.filter fun s =>
    (m.hostWin32 || strStartsWith s.mount (m.env.fromHost ("/"))) &&
      !(m.env.fs_type_filter.contains s.type)

/-- The validSizes field computed by the constructor. -/
def validSizes (m : DynamicStorageMapper) : List Size :=
  m.getValidSizes

/-- getBlocksForDisks: block devices matched by one of the entry's disks,
by exact device on Windows and by name prefix otherwise. -/
def getBlocksForDisks (m : DynamicStorageMapper) (disks : List Disk) : List Block :=
  m.blocks.filter fun b =>
    disks.any fun d =>
      if m.hostWin32 then d.device == b.device else strStartsWith b.name d.device

/-- getBlocksForRaid: block devices whose label or name is prefixed by the
entry's raid label or raid name; an absent or empty raid field (falsy in
JavaScript) matches nothing. -/
def getBlocksForRaid (m : DynamicStorageMapper) (raidLabel raidName : Option String) :
    List Block :=
  m.blocks.filter fun b =>
    (match raidLabel with
      | some l => !(l == "") && strStartsWith b.label l
      | none => false) ||
    (match raidName with
      | some n => !(n == "") && strStartsWith b.name n
      | none => false)

/-- getBlocksForXfs: md blocks with xfs filesystem sharing a uuid with an
already matched part. -/
def getBlocksForXfs (m : DynamicStorageMapper) (parts : List Block) : List Block :=
  m.blocks.filter fun b =>
    b.type == "md" && b.fsType == "xfs" && parts.any fun p => p.uuid == b.uuid

/-- isRootMount: the host root or a boot mount, never on Windows hosts. -/
def isRootMount (m : DynamicStorageMapper) (mount : String) : Bool :=
  !m.hostWin32 &&
    (mount == m.env.fromHost ("/") || strStartsWith mount (m.env.fromHost ("/boot")))

/-- The per-record predicate of the filter in getSizeForBlocks: matched by
mount (direct or by-uuid indirection), by device prefix of the filesystem
identifier, or by root-mount when the entry is the host. -/
def sizeMatchesBlocks (m : DynamicStorageMapper) (deviceBlocks : List Block)
    (isHost : Bool) (s : Size) : Bool :=
  deviceBlocks.any fun b =>
    let matchedByMount :=
      !(s.mount == "") &&
        (b.mount == s.mount || strEndsWith s.mount ("dev-disk-by-uuid-" ++ b.uuid))
    let matchedByDevice := !(b.device == "") && strStartsWith s.fs b.device
    let matchedByHost := isHost && m.isRootMount s.mount
    matchedByMount || matchedByDevice || matchedByHost

/-- The filesystem-size records selected by getSizeForBlocks for a
backing-device set. -/
def matchedSizes (m : DynamicStorageMapper) (deviceBlocks : List Block)
    (isHost : Bool) : List Size :=
  m.validSizes.filter (m.sizeMatchesBlocks deviceBlocks isHost)

/-- getSizeForBlocks: minus one when no record matches; otherwise the
summed used space, plus, unless some backing device is an LVM2 member, the
pre-allocated correction max of zero and the declared size minus the
summed available space. -/
def getSizeForBlocks (m : DynamicStorageMapper) (deviceBlocks : List Block)
    (diskSize : Int) (isHost : Bool) : Int :=
  let sizes := m.matchedSizes deviceBlocks isHost
  if sizes.isEmpty then -1
  else
    let calculatedSize := sumUpUsed sizes
    let isLvm := deviceBlocks.any fun b => b.fsType == "LVM2_member"
    if isLvm then calculatedSize
    else
      let totalAvailable := sumUpSize sizes
      let preAllocated := max 0 (diskSize - totalAvailable)
      calculatedSize + preAllocated

end DynamicStorageMapper

/-- The SMART candidate device paths of a layout entry: the disks' device
fields normalized to absolute paths, deduplicated, and filtered to
SATA-style names. -/
def smartCandidatesOf (e : StorageEntry) : List String :=
  (dedupFirst (e.disks.map fun d => normalizeDevicePath d.device)).filter
    smartSataDeviceTest

/-- JavaScript Math.max spread over a possibly empty array of known
temperatures: none on the empty array. -/
def jsMaxList (l : List Int) : Option Int :=
  match l with
  | [] => none
  | t :: ts => some (ts.foldl max t)

namespace DynamicStorageMapper

/-- The health-aggregation block at the top of the getMappedLayout entry
callback.  The smartFor argument stands for the SmartData returned by
getSmartData for each candidate device path (the calls are joined by
Promise.all; the candidate order is preserved).  Returns the aggregated
temperature, overallStatus and healthy fields. -/
def smartAggregate (m : DynamicStorageMapper) (smartFor : String → SmartData)
    (e : StorageEntry) : Option Int × Option String × Option Bool :=
  if m.env.enable_smart_temps && e.disks.length > 0 then
    let smartCandidates := smartCandidatesOf e
    if smartCandidates.length > 0 then
      let sdata := smartCandidates.map smartFor
      let availableTemps := sdata.filterMap fun s => s.temperature
      let temperature := jsMaxList availableTemps
      if sdata.any fun s => s.overallStatus == some ("FAILED") then
        (temperature, some ("FAILED"), some false)
      else if sdata.any fun s => s.overallStatus == some ("PASSED") then
        (temperature, some ("PASSED"), some true)
      else (temperature, none, none)
    else (none, none, none)
  else (none, none, none)

/-- The backing-device set of a non-virtual entry: disk-matched parts,
then raid-matched blocks, then xfs-over-md blocks of the matched parts. -/
def deviceBlocksOf (m : DynamicStorageMapper) (e : StorageEntry) : List Block :=
  let deviceParts := m.getBlocksForDisks e.disks
  deviceParts ++ m.getBlocksForRaid e.raidLabel e.raidName ++
    m.getBlocksForXfs deviceParts

/-- Whether some backing device of the entry is mounted at the host root. -/
def isHostOf (m : DynamicStorageMapper) (e : StorageEntry) : Bool :=
  (m.deviceBlocksOf e).any fun b => m.isRootMount b.mount

/-- The getMappedLayout entry callback for one layout entry.  A virtual
entry takes the used space of the first record of the raw sizes snapshot
whose filesystem identifier equals its first disk's device, zero when
there is none (on an empty disks list the JavaScript comparison against
undefined finds nothing); a non-virtual entry takes getSizeForBlocks over
its backing-device set. -/
def mapEntry (m : DynamicStorageMapper) (smartFor : String → SmartData)
    (e : StorageEntry) : StorageLoadExtendedEntry :=
  let agg := m.smartAggregate smartFor e
  if e.virtual then
    let virtualSize : Option Size :=
      match e.disks.head? with
      | some d => m.sizes.find? fun s => s.fs == d.device
      | none => none
    ⟨(virtualSize.map fun s => s.used).getD 0, agg.1, agg.2.1, agg.2.2⟩
  else
    let deviceBlocks := m.deviceBlocksOf e
    ⟨m.getSizeForBlocks deviceBlocks e.size (m.isHostOf e), agg.1, agg.2.1, agg.2.2⟩

/-- getMappedLayout: the layout mapped entrywise (Promise.all preserves
positions). -/
def getMappedLayout (m : DynamicStorageMapper) (smartFor : String → SmartData) :
    List StorageLoadExtendedEntry :=
  m.layout.map (m.mapEntry smartFor)

end DynamicStorageMapper

/-- LegacyStorageLoadItem from the patched index.ts: a plain number or an
object carrying a load field (the extended entries are passed as such). -/
inductive LegacyStorageLoadItem where
  | num (n : Int)
  | obj (e : StorageLoadExtendedEntry)
  deriving DecidableEq, Repr

/-- toLegacyStorageLoad from the patched index.ts: each item collapsed to
its numeric load value. -/
def toLegacyStorageLoad (storage : List LegacyStorageLoadItem) : List Int :=
  storage.map fun item =>
    match item with
    | .num n => n
    | .obj e => e.load

/-- A parsed JSON value, the result of JSON.parse on a response body. -/
inductive JVal where
  | jnull
  | jbool (b : Bool)
  | jnum (n : Int)
  | jstr (s : String)
  | jarr (xs : List JVal)
  | jobj (fields : List (String × JVal))
  deriving Repr

/-- JavaScript property access on a parsed JSON object; with duplicate
keys JSON.parse keeps the last occurrence. -/
def jGet (fields : List (String × JVal)) (k : String) : Option JVal :=
  (fields.reverse.find? fun p => p.1 == k).map fun p => p.2

/-- The per-item test of the client's shape validation: a truthy object
(null is falsy, so excluded) whose load property is a number; arrays and
primitives have no load property and fail. -/
def hasNumericLoad : JVal → Bool
  | .jobj fields =>
    match jGet fields ("load") with
    | some (.jnum _) => true
    | _ => false
  | _ => false

/-- The client's validation of the extended payload: an array whose every
element passes hasNumericLoad. -/
def jIsExtendedShape : JVal → Bool
  | .jarr xs => xs.all hasNumericLoad
  | _ => false

/-- A numeric property of a parsed JSON object, none when absent or not a
number. -/
def jNumField (fields : List (String × JVal)) (k : String) : Option Int :=
  match jGet fields k with
  | some (.jnum n) => some n
  | _ => none

/-- A typed view of one extended item under the client's declared
StorageLoadEntry type (load and optional numeric temperature).  This is
only the static-type narrowing: at runtime the source performs no such
projection and returns the parsed items unchanged; the faithful runtime
semantics is Runtime.getCurrentStorageLoadAsync below. -/
def toClientEntry : JVal → StorageLoadExtendedEntry
  | .jobj fields =>
    ⟨(jNumField fields ("load")).getD 0, jNumField fields ("temperature"), none, none⟩
  | _ => ⟨0, none, none, none⟩

/-- The items of a validated extended payload under the typed view. -/
def jExtractEntries : JVal → List StorageLoadExtendedEntry
  | .jarr xs => xs.map toClientEntry
  | _ => []

/-- A typed-view model of getCurrentStorageLoadAsync over decodable
bodies (none models the empty string).  Its legacy branch, with the
extended body absent, is the faithful elementwise wrap of the source's
fallback path and is what the round-trip algebra of claim C8 is about;
its extended branch applies the typed view above, which the source's
runtime does not, and the parse-failure path of a non-empty body is not
representable here.  The faithful runtime model of the whole function is
Runtime.getCurrentStorageLoadAsync below. -/
def getCurrentStorageLoadAsync (extendedBody : Option JVal)
    (legacyBody : Option (List Int)) : List StorageLoadExtendedEntry :=
  let useExtended :=
    match extendedBody with
    | some j => if jIsExtendedShape j then some (jExtractEntries j) else none
    | none => none
  match useExtended with
  | some entries => entries
  | none =>
    match legacyBody with
    | none => []
    | some ns => ns.map fun n => ⟨n, none, none, none⟩

/-- A response body at the granularity JSON.parse distinguishes: the
empty text, a non-empty text that fails to parse (JSON.parse throws), or
a non-empty text parsed to a JSON value. -/
inductive Body where
  | empty
  | malformed
  | val (j : JVal)

/-- The elements of a parsed JSON array. -/
def jElements : JVal → List JVal
  | .jarr xs => xs
  | _ => []

namespace Runtime

/-- The legacy wrap at runtime: the map call of the fallback path wraps
every element of the parsed array into a load object, whatever the
element is; on a parsed non-array the map call itself throws. -/
def legacyWrap : JVal → Except Unit (List JVal)
  | .jarr xs => .ok (xs.map fun x => JVal.jobj [(("load"), x)])
  | _ => .error ()

/-- getCurrentStorageLoadAsync from the patched Homarr integration at
erased-types runtime.  A non-empty extended body is given to JSON.parse,
whose failure propagates as a thrown error with no legacy fallback; a
parsed body of valid shape is returned with its elements untouched (the
TypeScript cast performs no projection, so non-numeric temperatures and
any health fields pass through); in the remaining cases the legacy body
is fetched, the empty body yielding the empty array, a parsed body being
wrapped elementwise, and an unparseable body throwing. -/
def getCurrentStorageLoadAsync (extendedBody legacyBody : Body) :
    Except Unit (List JVal) :=
  match extendedBody with
  | .malformed => .error ()
  | .val j =>
    if jIsExtendedShape j then .ok (jElements j)
    else
      match legacyBody with
      | .empty => .ok []
      | .malformed => .error ()
      | .val jl => legacyWrap jl
  | .empty =>
    match legacyBody with
    | .empty => .ok []
    | .malformed => .error ()
    | .val jl => legacyWrap jl

end Runtime

/-! Helper lemmas shared by the claim theorems. -/

/-- A left fold of max starts from an element of the list extended by the
seed. -/
theorem foldlMax_mem (t : Int) (ts : List Int) : ts.foldl max t ∈ t :: ts := by
  induction ts generalizing t with
  | nil => simp
  | cons a as ih =>
    have h := ih (max t a)
    rw [List.foldl_cons]
    rcases List.mem_cons.mp h with h1 | h1
    · rw [h1]
      rcases max_choice t a with hm | hm <;> rw [hm] <;> simp
    · exact List.mem_cons_of_mem t (List.mem_cons_of_mem a h1)

/-- A left fold of max bounds the seed and every element of the list. -/
theorem foldlMax_le (t : Int) (ts : List Int) : ∀ u ∈ t :: ts, u ≤ ts.foldl max t := by
  induction ts generalizing t with
  | nil =>
    intro u hu
    rw [List.mem_singleton] at hu
    simp [hu]
  | cons a as ih =>
    intro u hu
    rw [List.foldl_cons]
    have hbound : max t a ≤ as.foldl max (max t a) :=
      ih (max t a) (max t a) (List.mem_cons_self (max t a) as)
    rcases List.mem_cons.mp hu with h1 | h1
    · rw [h1]; exact le_trans (le_max_left t a) hbound
    · rcases List.mem_cons.mp h1 with h2 | h2
      · rw [h2]; exact le_trans (le_max_right t a) hbound
      · exact ih (max t a) u (List.mem_cons_of_mem (max t a) h2)

/-- Reading back the key just stored returns the stored entry. -/
theorem cacheGet_cacheSet_self (c : SmartCache) (k : String) (v : CacheEntry) :
    cacheGet (cacheSet c k v) k = some v := by
  induction c with
  | nil => simp [cacheSet, cacheGet]
  | cons p rest ih =>
    obtain ⟨a, w⟩ := p
    by_cases h : a == k
    · simp [cacheSet, h, cacheGet, List.find?]
    · simp only [cacheSet, h, Bool.false_eq_true, if_false]
      simpa [cacheGet, List.find?, h] using ih

/-- An empty backing-device set selects no filesystem-size record. -/
theorem matchedSizes_nil_blocks (m : DynamicStorageMapper) (isHost : Bool) :
    m.matchedSizes [] isHost = [] := by
  simp [DynamicStorageMapper.matchedSizes, DynamicStorageMapper.sizeMatchesBlocks]

/-- The SMART fields of a mapped entry come from the aggregation block in
both the virtual and the non-virtual branch. -/
theorem mapEntry_smart_fields (m : DynamicStorageMapper) (f : String → SmartData)
    (e : StorageEntry) :
    (m.mapEntry f e).temperature = (m.smartAggregate f e).1 ∧
    (m.mapEntry f e).overallStatus = (m.smartAggregate f e).2.1 ∧
    (m.mapEntry f e).healthy = (m.smartAggregate f e).2.2 := by
  unfold DynamicStorageMapper.mapEntry
  cases e.virtual <;> simp

/-- An entry without disks has no SMART candidates. -/
theorem smartCandidatesOf_nil_disks (e : StorageEntry) (h : e.disks = []) :
    smartCandidatesOf e = [] := by
  simp [smartCandidatesOf, h, dedupFirst, dedupFirstAux]

/-! The claims. -/

/-- Claim C1: for every layout, blocks and sizes input, getMappedLayout
returns an array whose length equals the layout array's length, and the
output entry at each index is the one computed (by the entry callback
mapEntry) for the layout entry at that same index. -/
theorem claimC1_index_alignment (m : DynamicStorageMapper)
    (smartFor : String → SmartData) :
    (m.getMappedLayout smartFor).length = m.layout.length ∧
    ∀ i : Nat, (m.getMappedLayout smartFor)[i]? =
      (m.layout[i]?).map (m.mapEntry smartFor) := by
  refine ⟨?_, fun i => ?_⟩
  · simp [DynamicStorageMapper.getMappedLayout]
  · simp [DynamicStorageMapper.getMappedLayout, List.getElem?_map]

/-- Claim C2: when at least one valid filesystem-size record matches the
backing-device set, the computed load is the summed used space of the
matched records when some backing device is an LVM2 member, and otherwise
that sum plus the nonnegative difference between the entry size and the
summed sizes of the matched records. -/
theorem claimC2_lvm_preallocation_policy (m : DynamicStorageMapper)
    (deviceBlocks : List Block) (diskSize : Int) (isHost : Bool)
    (h : m.matchedSizes deviceBlocks isHost ≠ []) :
    m.getSizeForBlocks deviceBlocks diskSize isHost =
      if deviceBlocks.any fun b => b.fsType == "LVM2_member" then
        sumUpUsed (m.matchedSizes deviceBlocks isHost)
      else
        sumUpUsed (m.matchedSizes deviceBlocks isHost) +
          max 0 (diskSize - sumUpSize (m.matchedSizes deviceBlocks isHost)) := by
  unfold DynamicStorageMapper.getSizeForBlocks
  have hni : (m.matchedSizes deviceBlocks isHost).isEmpty = false := by
    cases hmm : m.matchedSizes deviceBlocks isHost with
    | nil => exact absurd hmm h
    | cons a l => simp
  simp [hni]

/-- The environment of the claim C2 witness. -/
def envC2 : Env := ⟨true, [], fun s => s⟩

/-- A plain SATA block device for the claim C2 witness. -/
def bC2 : Block := ⟨"sda", "/dev/sda", "", "", "disk", "ext4", ""⟩

/-- The same block device flagged as an LVM2 member. -/
def bC2lvm : Block := { bC2 with fsType := "LVM2_member" }

/-- A filesystem-size record with used 300 of 400, matched by device
prefix. -/
def szC2 : Size := ⟨"/data", "/dev/sda1", "ext4", 300, 400⟩

/-- The claim C2 witness mapper, non-LVM variant. -/
def mC2 : DynamicStorageMapper := ⟨envC2, false, [], [bC2], [szC2]⟩

/-- The claim C2 witness mapper, LVM variant. -/
def mC2lvm : DynamicStorageMapper := ⟨envC2, false, [], [bC2lvm], [szC2]⟩

/-- Witness for claim C2: a non-LVM entry of size 1000 whose matched
records sum to used 300 and size 400 yields load 900, and the same match
under an LVM2 member yields load 300. -/
theorem claimC2_witness :
    mC2.matchedSizes [bC2] false ≠ [] ∧
    mC2.getSizeForBlocks [bC2] 1000 false = 900 ∧
    mC2lvm.getSizeForBlocks [bC2lvm] 1000 false = 300 := by
  refine ⟨by decide, ?_, ?_⟩
  · exact (claimC2_lvm_preallocation_policy mC2 [bC2] 1000 false (by decide)).trans
      (by decide)
  · exact (claimC2_lvm_preallocation_policy mC2lvm [bC2lvm] 1000 false (by decide)).trans
      (by decide)

/-- Claim C3: a non-virtual layout entry for which no valid
filesystem-size record matches the backing-device set, in particular any
non-virtual entry whose backing-device set is empty, is mapped to load
minus one, delivered as an ordinary output entry of getMappedLayout. -/
theorem claimC3_unmatched_entry (m : DynamicStorageMapper)
    (f : String → SmartData) (i : Nat) (e : StorageEntry)
    (hi : m.layout[i]? = some e) (hv : e.virtual = false)
    (hm : m.matchedSizes (m.deviceBlocksOf e) (m.isHostOf e) = [] ∨
      m.deviceBlocksOf e = []) :
    (m.getMappedLayout f)[i]? = some (m.mapEntry f e) ∧
    (m.mapEntry f e).load = -1 := by
  have hm' : m.matchedSizes (m.deviceBlocksOf e) (m.isHostOf e) = [] := by
    rcases hm with h | h
    · exact h
    · rw [h]; exact matchedSizes_nil_blocks m _
  constructor
  · rw [DynamicStorageMapper.getMappedLayout, List.getElem?_map, hi]; rfl
  · unfold DynamicStorageMapper.mapEntry
    simp [hv, DynamicStorageMapper.getSizeForBlocks, hm']

/-- The environment of the claim C3 witness. -/
def envC3 : Env := ⟨false, ["tmpfs"], fun s => "/host" ++ s⟩

/-- A non-virtual entry whose single disk matches no block device. -/
def eC3 : StorageEntry := { size := 500, disks := [⟨"nomatch"⟩], virtual := false }

/-- The claim C3 witness mapper: no block devices at all. -/
def mC3 : DynamicStorageMapper :=
  ⟨envC3, false, [eC3], [], [⟨"/outside", "overlay-dev", "tmpfs", 777, 1000⟩]⟩

/-- The all-unknown SMART lookup used by witnesses that do not exercise
SMART polling. -/
def smartUnknown : String → SmartData := fun _ => {}

/-- Witness for claim C3: the single non-virtual entry of the witness
mapper matches no block device and its output load is minus one. -/
theorem claimC3_witness :
    (mC3.getMappedLayout smartUnknown)[0]? = some (mC3.mapEntry smartUnknown eC3) ∧
    (mC3.mapEntry smartUnknown eC3).load = -1 :=
  claimC3_unmatched_entry mC3 smartUnknown 0 eC3 rfl rfl (Or.inr (by decide))

/-- With SMART polling enabled and a nonempty candidate list, the
aggregation block reduces to the failure-dominant status chain over the
candidates' SmartData, with the temperature always the maximum of the
known temperatures. -/
theorem smartAggregate_spec (m : DynamicStorageMapper) (f : String → SmartData)
    (e : StorageEntry) (hen : m.env.enable_smart_temps = true)
    (hc : smartCandidatesOf e ≠ []) :
    m.smartAggregate f e =
      (if ((smartCandidatesOf e).map f).any (fun s => s.overallStatus == some ("FAILED")) then
        (jsMaxList (((smartCandidatesOf e).map f).filterMap fun s => s.temperature),
          some ("FAILED"), some false)
      else if ((smartCandidatesOf e).map f).any (fun s => s.overallStatus == some ("PASSED")) then
        (jsMaxList (((smartCandidatesOf e).map f).filterMap fun s => s.temperature),
          some ("PASSED"), some true)
      else
        (jsMaxList (((smartCandidatesOf e).map f).filterMap fun s => s.temperature),
          none, none)) := by
  have hd : e.disks ≠ [] := fun h => hc (smartCandidatesOf_nil_disks e h)
  have hd' : 0 < e.disks.length := List.length_pos.mpr hd
  have hc' : 0 < (smartCandidatesOf e).length := List.length_pos.mpr hc
  unfold DynamicStorageMapper.smartAggregate
  simp [hen, hd', hc']

/-- Claim C4: for a layout entry with SMART candidates, a FAILED candidate
forces overallStatus FAILED and healthy false, otherwise a PASSED
candidate forces overallStatus PASSED and healthy true, otherwise both
fields stay unset; the aggregated temperature is the maximum of the
candidates' known temperatures and is unset exactly when none is known. -/
theorem claimC4_health_temperature_aggregation (m : DynamicStorageMapper)
    (f : String → SmartData) (i : Nat) (e : StorageEntry)
    (hi : m.layout[i]? = some e)
    (hen : m.env.enable_smart_temps = true)
    (hc : smartCandidatesOf e ≠ []) :
    (m.getMappedLayout f)[i]? = some (m.mapEntry f e) ∧
    ((∃ s ∈ (smartCandidatesOf e).map f, s.overallStatus = some ("FAILED")) →
      (m.mapEntry f e).overallStatus = some ("FAILED") ∧
      (m.mapEntry f e).healthy = some false) ∧
    ((∀ s ∈ (smartCandidatesOf e).map f, s.overallStatus ≠ some ("FAILED")) →
      (∃ s ∈ (smartCandidatesOf e).map f, s.overallStatus = some ("PASSED")) →
      (m.mapEntry f e).overallStatus = some ("PASSED") ∧
      (m.mapEntry f e).healthy = some true) ∧
    ((∀ s ∈ (smartCandidatesOf e).map f,
        s.overallStatus ≠ some ("FAILED") ∧ s.overallStatus ≠ some ("PASSED")) →
      (m.mapEntry f e).overallStatus = none ∧ (m.mapEntry f e).healthy = none) ∧
    ((m.mapEntry f e).temperature = none ↔
      ∀ s ∈ (smartCandidatesOf e).map f, s.temperature = none) ∧
    (∀ t : Int, (m.mapEntry f e).temperature = some t →
      (∃ s ∈ (smartCandidatesOf e).map f, s.temperature = some t) ∧
      ∀ s ∈ (smartCandidatesOf e).map f, ∀ u : Int, s.temperature = some u → u ≤ t) := by
  obtain ⟨hT, hS, hH⟩ := mapEntry_smart_fields m f e
  have hagg := smartAggregate_spec m f e hen hc
  have hTval : (m.smartAggregate f e).1 =
      jsMaxList (((smartCandidatesOf e).map f).filterMap fun s => s.temperature) := by
    rw [hagg]
    by_cases h1 :
        ((smartCandidatesOf e).map f).any (fun s => s.overallStatus == some ("FAILED")) <;>
      by_cases h2 :
          ((smartCandidatesOf e).map f).any (fun s => s.overallStatus == some ("PASSED")) <;>
      simp [h1, h2]
  have anyF_of : (∃ s ∈ (smartCandidatesOf e).map f, s.overallStatus = some ("FAILED")) →
      (((smartCandidatesOf e).map f).any fun s => s.overallStatus == some ("FAILED")) = true := by
    rintro ⟨s, hs, hso⟩
    exact List.any_eq_true.mpr ⟨s, hs, by simp [hso]⟩
  have anyP_of : (∃ s ∈ (smartCandidatesOf e).map f, s.overallStatus = some ("PASSED")) →
      (((smartCandidatesOf e).map f).any fun s => s.overallStatus == some ("PASSED")) = true := by
    rintro ⟨s, hs, hso⟩
    exact List.any_eq_true.mpr ⟨s, hs, by simp [hso]⟩
  have anyF_not : (∀ s ∈ (smartCandidatesOf e).map f, s.overallStatus ≠ some ("FAILED")) →
      (((smartCandidatesOf e).map f).any fun s => s.overallStatus == some ("FAILED")) = false := by
    intro hall
    cases hb : ((smartCandidatesOf e).map f).any fun s => s.overallStatus == some ("FAILED") with
    | false => rfl
    | true =>
      obtain ⟨s, hs, hp⟩ := List.any_eq_true.mp hb
      exact absurd (by simpa using hp) (hall s hs)
  have anyP_not : (∀ s ∈ (smartCandidatesOf e).map f, s.overallStatus ≠ some ("PASSED")) →
      (((smartCandidatesOf e).map f).any fun s => s.overallStatus == some ("PASSED")) = false := by
    intro hall
    cases hb : ((smartCandidatesOf e).map f).any fun s => s.overallStatus == some ("PASSED") with
    | false => rfl
    | true =>
      obtain ⟨s, hs, hp⟩ := List.any_eq_true.mp hb
      exact absurd (by simpa using hp) (hall s hs)
  refine ⟨?_, ?_, ?_, ?_, ?_, ?_⟩
  · rw [DynamicStorageMapper.getMappedLayout, List.getElem?_map, hi]; rfl
  · intro hex
    have hb := anyF_of hex
    rw [hS, hH, hagg, hb]
    simp
  · intro hallF hexP
    have hbF := anyF_not hallF
    have hbP := anyP_of hexP
    rw [hS, hH, hagg, hbF, hbP]
    simp
  · intro hall
    have hbF := anyF_not fun s hs => (hall s hs).1
    have hbP := anyP_not fun s hs => (hall s hs).2
    rw [hS, hH, hagg, hbF, hbP]
    simp
  · rw [hT, hTval]
    cases hav : ((smartCandidatesOf e).map f).filterMap fun s => s.temperature with
    | nil =>
      have hall := List.filterMap_eq_nil_iff.mp hav
      exact iff_of_true rfl fun s hs => hall s hs
    | cons a as =>
      simp only [jsMaxList]
      constructor
      · intro h; exact absurd h (by simp)
      · intro hall
        have : ((smartCandidatesOf e).map f).filterMap (fun s => s.temperature) = [] :=
          List.filterMap_eq_nil_iff.mpr hall
        rw [hav] at this
        exact absurd this (by simp)
  · intro t ht
    rw [hT, hTval] at ht
    cases hav : ((smartCandidatesOf e).map f).filterMap fun s => s.temperature with
    | nil => rw [hav] at ht; exact absurd ht (by simp [jsMaxList])
    | cons a as =>
      rw [hav] at ht
      have ht' : as.foldl max a = t := by simpa [jsMaxList] using ht
      constructor
      · have hmem : t ∈ a :: as := ht' ▸ foldlMax_mem a as
        rw [← hav] at hmem
        obtain ⟨s, hs, hsf⟩ := List.mem_filterMap.mp hmem
        exact ⟨s, hs, hsf⟩
      · intro s hs u hu
        have humem : u ∈ ((smartCandidatesOf e).map f).filterMap fun s => s.temperature :=
          List.mem_filterMap.mpr ⟨s, hs, hu⟩
        rw [hav] at humem
        exact ht' ▸ foldlMax_le a as u humem

/-- The environment of the claim C4 witness: SMART polling enabled. -/
def envC4 : Env := ⟨true, [], fun s => s⟩

/-- A virtual entry backed by two SATA disks for the claim C4 witness. -/
def eC4 : StorageEntry := { size := 0, disks := [⟨"sda"⟩, ⟨"sdb"⟩], virtual := true }

/-- SMART lookup of the claim C4 witness: one PASSED disk at 40 degrees
and one FAILED disk at 55 degrees. -/
def fC4 : String → SmartData := fun d =>
  if d == "/dev/sda" then ⟨some 40, some ("PASSED"), some true⟩
  else ⟨some 55, some ("FAILED"), some false⟩

/-- The claim C4 witness mapper. -/
def mC4 : DynamicStorageMapper := ⟨envC4, false, [eC4], [], []⟩

/-- Witness for claim C4: with candidates reporting PASSED and FAILED the
mapped entry reports overallStatus FAILED and healthy false. -/
theorem claimC4_witness :
    (mC4.getMappedLayout fC4)[0]? = some (mC4.mapEntry fC4 eC4) ∧
    (mC4.mapEntry fC4 eC4).overallStatus = some ("FAILED") ∧
    (mC4.mapEntry fC4 eC4).healthy = some false := by
  obtain ⟨h0, hfail, -, -, -, -⟩ :=
    claimC4_health_temperature_aggregation mC4 fC4 0 eC4 rfl rfl (by decide)
  have hex : ∃ s ∈ (smartCandidatesOf eC4).map fC4, s.overallStatus = some ("FAILED") :=
    ⟨fC4 ("/dev/sdb"), by decide, by decide⟩
  obtain ⟨hs1, hs2⟩ := hfail hex
  exact ⟨h0, hs1, hs2⟩

/-- On a cache miss or stale entry, getSmartData invokes the tool and
stores a record timestamped now whose SMART fields are the returned
data. -/
theorem getSmartData_miss (probe : Option (String × String)) (now : Int)
    (cache : SmartCache) (devicePath : String)
    (h : smartCacheFresh cache now devicePath = none) :
    ∃ v : CacheEntry, v.timestamp = now ∧
      getSmartData probe now cache devicePath =
        ⟨⟨v.temperature, v.overallStatus, v.healthy⟩, cacheSet cache devicePath v, true⟩ := by
  cases probe with
  | none => exact ⟨⟨none, none, none, now⟩, rfl, by simp [getSmartData, h]⟩
  | some pr =>
    obtain ⟨attrOut, healthOut⟩ := pr
    exact ⟨⟨parseSmartTemperature attrOut, (parseSmartHealth healthOut).1,
      (parseSmartHealth healthOut).2, now⟩, rfl, by simp [getSmartData, h]⟩

/-- On a fresh cache hit, getSmartData returns the stored record without
invoking the tool and leaves the cache unchanged. -/
theorem getSmartData_hit (probe : Option (String × String)) (now : Int)
    (cache : SmartCache) (devicePath : String) (v : CacheEntry)
    (h : cacheGet cache devicePath = some v) (hfresh : now - v.timestamp < 60000) :
    getSmartData probe now cache devicePath =
      ⟨⟨v.temperature, v.overallStatus, v.healthy⟩, cache, false⟩ := by
  have hf : smartCacheFresh cache now devicePath = some v := by
    simp [smartCacheFresh, h, SMART_CACHE_DURATION_MS, hfresh]
  simp [getSmartData, hf]

/-- On a miss or stale entry the tool is invoked, whatever the outcome. -/
theorem getSmartData_stale_invoked (probe : Option (String × String)) (now : Int)
    (cache : SmartCache) (devicePath : String)
    (h : smartCacheFresh cache now devicePath = none) :
    (getSmartData probe now cache devicePath).invoked = true := by
  obtain ⟨v, -, he⟩ := getSmartData_miss probe now cache devicePath h
  rw [he]

/-- Claim C5: after a storing call at time t1 on a previously unseen
device path, a second call within 60000 ms performs no tool invocation
and returns the record stored by the first call, while a second call at
or past the TTL re-invokes the tool. -/
theorem claimC5_cache_ttl (p1 p2 : Option (String × String)) (t1 t2 : Int)
    (c0 : SmartCache) (devicePath : String)
    (hmiss : cacheGet c0 devicePath = none) :
    (getSmartData p1 t1 c0 devicePath).invoked = true ∧
    (t2 - t1 < 60000 →
      (getSmartData p2 t2 (getSmartData p1 t1 c0 devicePath).cache devicePath).invoked
        = false ∧
      (getSmartData p2 t2 (getSmartData p1 t1 c0 devicePath).cache devicePath).data =
        (getSmartData p1 t1 c0 devicePath).data) ∧
    (60000 ≤ t2 - t1 →
      (getSmartData p2 t2 (getSmartData p1 t1 c0 devicePath).cache devicePath).invoked
        = true) := by
  have hfresh0 : smartCacheFresh c0 t1 devicePath = none := by
    simp [smartCacheFresh, hmiss]
  obtain ⟨v, hts, he⟩ := getSmartData_miss p1 t1 c0 devicePath hfresh0
  have hget : cacheGet (getSmartData p1 t1 c0 devicePath).cache devicePath = some v := by
    rw [he]; exact cacheGet_cacheSet_self c0 devicePath v
  refine ⟨by rw [he], fun hlt => ?_, fun hge => ?_⟩
  · have hfresh : t2 - v.timestamp < 60000 := by rw [hts]; exact hlt
    have h2 := getSmartData_hit p2 t2 _ devicePath v hget hfresh
    exact ⟨by rw [h2], by rw [h2, he]⟩
  · have hfresh2 :
        smartCacheFresh (getSmartData p1 t1 c0 devicePath).cache t2 devicePath = none := by
      simp only [smartCacheFresh, hget, SMART_CACHE_DURATION_MS, hts]
      rw [if_neg]
      omega
    exact getSmartData_stale_invoked p2 t2 _ devicePath hfresh2

/-- Witness for claim C5: a first call at time 0 on an empty cache
invokes the tool; a repeat at 59999 ms does not; a repeat at 60000 ms
does. -/
theorem claimC5_witness :
    (getSmartData none 0 [] ("/dev/sda")).invoked = true ∧
    (getSmartData (some (("a"), ("b"))) 59999
      (getSmartData none 0 [] ("/dev/sda")).cache ("/dev/sda")).invoked = false ∧
    (getSmartData (some (("a"), ("b"))) 60000
      (getSmartData none 0 [] ("/dev/sda")).cache ("/dev/sda")).invoked = true := by
  obtain ⟨h1, h2, -⟩ :=
    claimC5_cache_ttl none (some (("a"), ("b"))) 0 59999 [] ("/dev/sda") rfl
  obtain ⟨-, -, h3⟩ :=
    claimC5_cache_ttl none (some (("a"), ("b"))) 0 60000 [] ("/dev/sda") rfl
  exact ⟨h1, (h2 (by decide)).1, h3 (by decide)⟩

/-- Claim C6: when the tool invocation fails on a previously unseen
device path, getSmartData returns a record with every SMART field unknown
and stores that record under the current timestamp; a further call within
the TTL returns the same all-unknown record without invoking the tool. -/
theorem claimC6_failure_resilience (p2 : Option (String × String)) (t1 t2 : Int)
    (c0 : SmartCache) (devicePath : String)
    (hmiss : cacheGet c0 devicePath = none) :
    (getSmartData none t1 c0 devicePath).data = ⟨none, none, none⟩ ∧
    cacheGet (getSmartData none t1 c0 devicePath).cache devicePath =
      some ⟨none, none, none, t1⟩ ∧
    (t2 - t1 < 60000 →
      (getSmartData p2 t2 (getSmartData none t1 c0 devicePath).cache devicePath).data =
        ⟨none, none, none⟩ ∧
      (getSmartData p2 t2 (getSmartData none t1 c0 devicePath).cache devicePath).invoked
        = false) := by
  have hfresh0 : smartCacheFresh c0 t1 devicePath = none := by
    simp [smartCacheFresh, hmiss]
  have he : getSmartData none t1 c0 devicePath =
      ⟨⟨none, none, none⟩, cacheSet c0 devicePath ⟨none, none, none, t1⟩, true⟩ := by
    simp [getSmartData, hfresh0]
  have hget : cacheGet (getSmartData none t1 c0 devicePath).cache devicePath =
      some ⟨none, none, none, t1⟩ := by
    rw [he]; exact cacheGet_cacheSet_self c0 devicePath ⟨none, none, none, t1⟩
  refine ⟨by rw [he], hget, fun hlt => ?_⟩
  have h2 := getSmartData_hit p2 t2 _ devicePath ⟨none, none, none, t1⟩ hget hlt
  exact ⟨by rw [h2], by rw [h2]⟩

/-- Witness for claim C6: a failed probe at time 5 yields the all-unknown
record, stores it at timestamp 5, and a call at time 100 returns the same
record without invoking the tool. -/
theorem claimC6_witness :
    (getSmartData none 5 [] ("/dev/sdb")).data = ⟨none, none, none⟩ ∧
    cacheGet (getSmartData none 5 [] ("/dev/sdb")).cache ("/dev/sdb") =
      some ⟨none, none, none, 5⟩ ∧
    (getSmartData none 100 (getSmartData none 5 [] ("/dev/sdb")).cache ("/dev/sdb")).data =
      ⟨none, none, none⟩ ∧
    (getSmartData none 100 (getSmartData none 5 [] ("/dev/sdb")).cache ("/dev/sdb")).invoked
      = false := by
  obtain ⟨h1, h2, h3⟩ := claimC6_failure_resilience none 5 100 [] ("/dev/sdb") rfl
  obtain ⟨h4, h5⟩ := h3 (by decide)
  exact ⟨h1, h2, h4, h5⟩

/-- A candidate attribute line whose raw-value column does not parse as
an integer, followed by a second candidate line whose raw value is 42. -/
def c7Line1 : String := "194 Temperature_Celsius 0 0 0 0 0 0 0 x"

/-- The two-line attribute dump of the claim C7 counterexample. -/
def c7Input : String :=
  "194 Temperature_Celsius 0 0 0 0 0 0 0 x\n194 Temperature_Celsius 0 0 0 0 0 0 0 42"

/-- Counterexample for claim C7: the first candidate line's raw value
does not parse, yet parseSmartTemperature does not leave the temperature
unknown; it returns 42 from the second candidate line, so the first
candidate's parse failure does not end the scan. -/
theorem claimC7_counterexample :
    splitLines c7Input =
      [c7Line1, ("194 Temperature_Celsius 0 0 0 0 0 0 0 42")] ∧
    isTempCandidate c7Line1 = true ∧
    lineRawValue c7Line1 = some ("x") ∧
    jsParseInt ("x") = none ∧
    parseSmartTemperature c7Input = some 42 := by
  decide

/-- Modelled from the amended claim's words: the temperature one line
contributes to the scan, namely the parse of its raw-value column when
the line is a candidate, and nothing otherwise. -/
def lineTempValue (line : String) : Option Int :=
  if isTempCandidate line then
    match lineRawValue line with
    | some rv => if rv ≠ "" then jsParseInt rv else none
    | none => none
  else none

/-- Claim C7 amended: parseSmartTemperature scans lines in order and
returns the integer parsed from the raw-value column of the first
candidate line whose raw value parses; when no candidate line's raw value
parses, the temperature is left unknown. -/
theorem claimC7_first_parsable_candidate (stdout : String) :
    parseSmartTemperature stdout =
      ((splitLines stdout).filterMap lineTempValue).head? := by
  unfold parseSmartTemperature
  generalize splitLines stdout = ls
  induction ls with
  | nil => rfl
  | cons line rest ih =>
    simp only [parseSmartTemperatureGo]
    rw [List.filterMap_cons]
    by_cases hc : isTempCandidate line
    · cases hrv : lineRawValue line with
      | none => simp [lineTempValue, hc, hrv, ih]
      | some rv =>
        by_cases hne : rv = ""
        · simp [lineTempValue, hc, hrv, hne, ih]
        · cases hp : jsParseInt rv with
          | none => simp [lineTempValue, hc, hrv, hne, hp, ih]
          | some t => simp [lineTempValue, hc, hrv, hne, hp]
    · simp [lineTempValue, hc, ih]

/-- Claim C8: projecting extended entries to legacy form keeps length and
maps each position to its load; wrapping a legacy number array (the
client's fallback path) produces load-only objects positionwise; wrapping
then projecting is the identity on number arrays. -/
theorem claimC8_legacy_roundtrip (entries : List StorageLoadExtendedEntry)
    (ns : List Int) :
    (toLegacyStorageLoad (entries.map LegacyStorageLoadItem.obj)).length =
      entries.length ∧
    (∀ i : Nat, (toLegacyStorageLoad (entries.map LegacyStorageLoadItem.obj))[i]? =
      (entries[i]?).map fun e => e.load) ∧
    getCurrentStorageLoadAsync none (some ns) =
      (ns.map fun n => ⟨n, none, none, none⟩) ∧
    toLegacyStorageLoad
      ((getCurrentStorageLoadAsync none (some ns)).map LegacyStorageLoadItem.obj) =
      ns := by
  refine ⟨?_, fun i => ?_, rfl, ?_⟩
  · simp [toLegacyStorageLoad]
  · simp only [toLegacyStorageLoad, List.map_map, List.getElem?_map]
    cases entries[i]? <;> rfl
  · induction ns with
    | nil => rfl
    | cons a as ih =>
      simpa [toLegacyStorageLoad, getCurrentStorageLoadAsync] using ih

/-- The extended payload of the claim C9 counterexample and witness: one
object with load 7 and a string temperature. -/
def jC9x : JVal :=
  .jarr [.jobj [(("load"), .jnum 7), (("temperature"), .jstr ("hot"))]]

/-- Counterexample for claim C9 as stated: the payload validates, yet the
returned element keeps its non-numeric temperature unchanged (nothing is
discarded), and a non-empty extended body that fails to decode propagates
an error instead of fetching and wrapping the legacy payload. -/
theorem claimC9_counterexample :
    jIsExtendedShape jC9x = true ∧
    Runtime.getCurrentStorageLoadAsync (.val jC9x) .empty =
      .ok [.jobj [(("load"), .jnum 7), (("temperature"), .jstr ("hot"))]] ∧
    Runtime.getCurrentStorageLoadAsync .malformed (.val (.jarr [.jnum 3])) =
      .error () :=
  ⟨rfl, rfl, rfl⟩

/-- Claim C9 amended: the extended payload is used iff its body is
non-empty and decodes to an array of objects with numeric loads, its
elements returned unchanged; a body decoding to any other shape falls
back to the legacy payload, whose absence yields the empty result and
whose parsed elements, numbers included, are wrapped as load objects; a
non-empty body that fails to decode propagates the parse error instead
of falling back; no error arises from an empty body. -/
theorem claimC9_runtime_negotiation (xs : List JVal) (lb : Body) :
    (jIsExtendedShape (.jarr xs) = true →
      Runtime.getCurrentStorageLoadAsync (.val (.jarr xs)) lb = .ok xs) ∧
    (∀ j : JVal, jIsExtendedShape j = false →
      Runtime.getCurrentStorageLoadAsync (.val j) lb =
        Runtime.getCurrentStorageLoadAsync .empty lb) ∧
    (Runtime.getCurrentStorageLoadAsync .empty .empty = .ok []) ∧
    (∀ xsl : List JVal,
      Runtime.getCurrentStorageLoadAsync .empty (.val (.jarr xsl)) =
        .ok (xsl.map fun x => JVal.jobj [(("load"), x)])) ∧
    (Runtime.getCurrentStorageLoadAsync .malformed lb = .error ()) := by
  refine ⟨fun h => ?_, fun j h => ?_, rfl, fun xsl => rfl, rfl⟩
  · simp [Runtime.getCurrentStorageLoadAsync, h, jElements]
  · simp [Runtime.getCurrentStorageLoadAsync, h]

/-- Witness for amended claim C9: the valid payload's element is
returned with its non-numeric temperature intact even though a legacy
body is available, and an extended body decoding to a non-array falls
back to the elementwise legacy wrap. -/
theorem claimC9_runtime_witness :
    Runtime.getCurrentStorageLoadAsync (.val jC9x) (.val (.jarr [.jnum 3])) =
      .ok [.jobj [(("load"), .jnum 7), (("temperature"), .jstr ("hot"))]] ∧
    Runtime.getCurrentStorageLoadAsync (.val (.jstr ("nope"))) (.val (.jarr [.jnum 3])) =
      .ok [.jobj [(("load"), .jnum 3)]] := by
  obtain ⟨h1, -, -, -, -⟩ :=
    claimC9_runtime_negotiation
      [.jobj [(("load"), JVal.jnum 7), (("temperature"), JVal.jstr ("hot"))]]
      (.val (.jarr [.jnum 3]))
  obtain ⟨-, h2, -, h4, -⟩ :=
    claimC9_runtime_negotiation [] (.val (.jarr [.jnum 3]))
  exact ⟨h1 rfl, (h2 (.jstr ("nope")) rfl).trans (h4 [.jnum 3])⟩

/-- Claim C10: a virtual entry's load is looked up in the raw sizes
snapshot: the used field of the first record whose fs equals the first
disk's device, and zero when no record matches or the disks list is
empty. -/
theorem claimC10_virtual_raw_sizes (m : DynamicStorageMapper)
    (f : String → SmartData) (i : Nat) (e : StorageEntry)
    (hi : m.layout[i]? = some e) (hv : e.virtual = true) :
    (m.getMappedLayout f)[i]? = some (m.mapEntry f e) ∧
    (m.mapEntry f e).load =
      (match e.disks.head? with
      | none => 0
      | some d =>
        match m.sizes.find? fun s => s.fs == d.device with
        | none => 0
        | some s => s.used) := by
  constructor
  · rw [DynamicStorageMapper.getMappedLayout, List.getElem?_map, hi]; rfl
  · unfold DynamicStorageMapper.mapEntry
    rw [hv]
    cases hd : e.disks.head? with
    | none => simp
    | some d =>
      cases hf : m.sizes.find? fun s => s.fs == d.device with
      | none => simp [hf]
      | some s => simp [hf]

/-- The environment of the claim C10 witness: the record's type is in the
filesystem-type filter and its mount lies outside the host root prefix. -/
def envC10 : Env := ⟨false, [("tmpfs")], fun s => "/host" ++ s⟩

/-- A filesystem-size record that getValidSizes excludes. -/
def szC10 : Size := ⟨"/outside", "overlay-dev", "tmpfs", 777, 1000⟩

/-- A virtual entry whose first disk device equals the excluded record's
filesystem identifier. -/
def eC10 : StorageEntry := { size := 0, disks := [⟨"overlay-dev"⟩], virtual := true }

/-- A virtual entry with an empty disks list. -/
def eC10b : StorageEntry := { size := 0, disks := [], virtual := true }

/-- The claim C10 witness mapper. -/
def mC10 : DynamicStorageMapper := ⟨envC10, false, [eC10, eC10b], [], [szC10]⟩

/-- Witness for claim C10: although the filtered validSizes is empty, the
virtual entry's load is 777 from the raw snapshot, and the virtual entry
without disks gets load zero. -/
theorem claimC10_witness :
    mC10.validSizes = [] ∧
    (mC10.getMappedLayout smartUnknown)[0]? = some (mC10.mapEntry smartUnknown eC10) ∧
    (mC10.mapEntry smartUnknown eC10).load = 777 ∧
    (mC10.getMappedLayout smartUnknown)[1]? = some (mC10.mapEntry smartUnknown eC10b) ∧
    (mC10.mapEntry smartUnknown eC10b).load = 0 := by
  obtain ⟨ha1, ha2⟩ := claimC10_virtual_raw_sizes mC10 smartUnknown 0 eC10 rfl rfl
  obtain ⟨hb1, hb2⟩ := claimC10_virtual_raw_sizes mC10 smartUnknown 1 eC10b rfl rfl
  exact ⟨by decide, ha1, ha2.trans (by decide), hb1, hb2.trans (by decide)⟩

end DashdotSmart
